import Mathlib

/-!
Shallow embedding of the lc3-vm interpreter (src/vm/memory.rs,
src/vm/register.rs, src/vm/ops/mod.rs, src/vm/machine.rs, src/main.rs,
src/terminal/mod.rs).

Conventions of the embedding:
* Rust `u16` values are `Nat`s kept below 2^16 by the operations themselves
  (`wrapping_add` reduces mod 65536, bitwise ops preserve the bound).
* `u16::wrapping_add` is `wrapping_add` below; the two places where the
  source uses an unchecked `+=` on a `u16` (the PC increment in the fetch
  step and the `addr += 1` advances inside the PUTS and PUTSP trap loops)
  are modelled by `checkedAdd`, whose `none` result models the arithmetic
  overflow panic raised by Rust's checked builds.
* Standard input is modelled as the list of pending bytes; `check_key`
  (the zero-timeout `select` on stdin) is "the list is nonempty", and a
  successful one-byte read consumes the head.  Standard output is the list
  of bytes printed so far.
* Fallible operations return `Option`/`Except`-style results; a `none` or
  `panicked` constructor stands for a Rust panic (slice out of bounds,
  arithmetic overflow), which is distinct from a returned `VMError`.
-/

namespace LC3

/-- memory.rs: `MEMORY_MAX`, 65536 cells. -/
def MEMORY_MAX : Nat := 65536

/-- memory.rs: keyboard status register address `MR_KBSR`. -/
def MR_KBSR : Nat := 0xFE00

/-- memory.rs: keyboard data register address `MR_KBDR`. -/
def MR_KBDR : Nat := 0xFE02

/-- register.rs: condition flag `FL_POS = 1 << 0`. -/
def FL_POS : Nat := 1

/-- register.rs: condition flag `FL_ZRO = 1 << 1`. -/
def FL_ZRO : Nat := 2

/-- register.rs: condition flag `FL_NEG = 1 << 2`. -/
def FL_NEG : Nat := 4

/-- register.rs: register indices; R0..R7 are 0..7, then PC, then COND. -/
def R0 : Nat := 0

/-- register.rs: register index of R7 (the link register). -/
def R7 : Nat := 7

/-- register.rs: register index of the program counter. -/
def PC : Nat := 8

/-- register.rs: register index of the condition-flag register. -/
def COND : Nat := 9

/-- ops/mod.rs: trap vector `TRAP_GETC = 0x20`. -/
def TRAP_GETC : Nat := 0x20

/-- ops/mod.rs: trap vector `TRAP_OUT = 0x21`. -/
def TRAP_OUT : Nat := 0x21

/-- ops/mod.rs: trap vector `TRAP_PUTS = 0x22`. -/
def TRAP_PUTS : Nat := 0x22

/-- ops/mod.rs: trap vector `TRAP_IN = 0x23`. -/
def TRAP_IN : Nat := 0x23

/-- ops/mod.rs: trap vector `TRAP_PUTSP = 0x24`. -/
def TRAP_PUTSP : Nat := 0x24

/-- ops/mod.rs: trap vector `TRAP_HALT = 0x25`. -/
def TRAP_HALT : Nat := 0x25

/-- `u16::wrapping_add`. -/
def wrapping_add (a b : Nat) : Nat := (a + b) % 65536

/-- Rust unchecked `+` on `u16` (the `+=` in the fetch step and the trap
string loops): `none` models the overflow panic of checked arithmetic. -/
def checkedAdd (a b : Nat) : Option Nat :=
  if a + b < 65536 then some (a + b) else none

/-- machine.rs: `sign_extend(x, bit_count)`.  `0xFFFF << bit_count` is a
`u16` shift, so its result is truncated to 16 bits before the `|`. -/
def sign_extend (x bit_count : Nat) : Nat :=
  if (x >>> (bit_count - 1)) &&& 1 ≠ 0 then
    x ||| ((0xFFFF <<< bit_count) % 65536)
  else
    x

/-- memory.rs: the `Memory` struct, `cells: [u16; MEMORY_MAX]` as a map
from addresses to values. -/
structure Memory where
  cells : Nat → Nat

/-- memory.rs: `Memory::new`, all cells zero. -/
def Memory.new : Memory := ⟨fun _ => 0⟩

/-- memory.rs: `Memory::write`, stores unconditionally. -/
def Memory.write (m : Memory) (address value : Nat) : Memory :=
  ⟨fun a => if a = address then value else m.cells a⟩

/-- memory.rs: `Memory::read`.  On the keyboard status address it first
polls stdin (`check_key`, modelled by the pending-input list being
nonempty); a pending byte sets the status register to `1 << 15` and copies
the byte into the data register, otherwise the status register is cleared
to 0.  It then returns the (possibly refreshed) cell at `address`.  The
result is (new memory, remaining input, value read). -/
def Memory.read (m : Memory) (input : List Nat) (address : Nat) :
    Memory × List Nat × Nat :=
  if address = MR_KBSR then
    match input with
    | b :: rest =>
        let m1 := (m.write MR_KBSR (1 <<< 15)).write MR_KBDR (b % 256)
        (m1, rest, m1.cells address)
    | [] =>
        let m1 := m.write MR_KBSR 0
        (m1, [], m1.cells address)
  else
    (m, input, m.cells address)

/-- memory.rs: the copy loop behind `copy_from_slice` in `load_image`:
write the words one after another starting at `start`. -/
def Memory.storeWords : Memory → Nat → List Nat → Memory
  | m, _, [] => m
  | m, a, w :: ws => Memory.storeWords (m.write a w) (a + 1) ws

/-- memory.rs: `Memory::load_image` copies `program` into
`cells[origin .. origin + len]` with `copy_from_slice`; `none` models the
slice-bounds panic when `origin + len > MEMORY_MAX` (the source performs
no range check). -/
def Memory.load_image (m : Memory) (origin : Nat) (program : List Nat) :
    Option Memory :=
  if origin + program.length ≤ MEMORY_MAX then
    some (Memory.storeWords m origin program)
  else
    none

/-- ops/mod.rs: the `OpCode` enum. -/
inductive OpCode
  | BR
  | ADD
  | LD
  | ST
  | JSR
  | AND
  | LDR
  | STR
  | RTI
  | NOT
  | LDI
  | STI
  | JMP
  | RES
  | LEA
  | TRAP
deriving DecidableEq

/-- ops/mod.rs: the discriminant of each `OpCode` (`op as u16`). -/
def OpCode.toNat : OpCode → Nat
  | .BR => 0
  | .ADD => 1
  | .LD => 2
  | .ST => 3
  | .JSR => 4
  | .AND => 5
  | .LDR => 6
  | .STR => 7
  | .RTI => 8
  | .NOT => 9
  | .LDI => 10
  | .STI => 11
  | .JMP => 12
  | .RES => 13
  | .LEA => 14
  | .TRAP => 15

/-- ops/mod.rs: `OpCode::from_u16`. -/
def OpCode.from_u16 (value : Nat) : Option OpCode :=
  match value with
  | 0 => some .BR
  | 1 => some .ADD
  | 2 => some .LD
  | 3 => some .ST
  | 4 => some .JSR
  | 5 => some .AND
  | 6 => some .LDR
  | 7 => some .STR
  | 8 => some .RTI
  | 9 => some .NOT
  | 10 => some .LDI
  | 11 => some .STI
  | 12 => some .JMP
  | 13 => some .RES
  | 14 => some .LEA
  | 15 => some .TRAP
  | _ => none

/-- machine.rs: the `VMError` enum.  `IOFail` is `VMError::IO(_)` (the
wrapped `io::Error` payload is irrelevant to control flow). -/
inductive VMError
  | IOFail
  | InvalidOpCode (v : Nat)
  | InvalidProgram
deriving DecidableEq

/-- machine.rs: the `VM` struct together with the process-level character
streams its handlers touch: `input` is the list of bytes still pending on
stdin, `output` the bytes printed to stdout so far. -/
structure VMState where
  mem : Memory
  regs : Nat → Nat
  input : List Nat
  output : List Nat

/-- Write one register slot (`self.registers[r] = v`). -/
def VMState.setReg (s : VMState) (r v : Nat) : VMState :=
  { s with regs := fun i => if i = r then v else s.regs i }

/-- Replace the memory and pending-input components after a
side-effecting `Memory::read`. -/
def VMState.withRead (s : VMState) (f : Memory × List Nat × Nat) : VMState :=
  { s with mem := f.1, input := f.2.1 }

/-- machine.rs: flag chosen by `VM::update_flags` from the value just
written: `FL_ZRO` for 0, else `FL_NEG` when bit 15 is set, else `FL_POS`. -/
def flagOf (val : Nat) : Nat :=
  if val = 0 then FL_ZRO
  else if val >>> 15 ≠ 0 then FL_NEG
  else FL_POS

/-- machine.rs: `VM::update_flags(r)` stores `flagOf` of register `r` into
the condition-flag register. -/
def VMState.update_flags (s : VMState) (r : Nat) : VMState :=
  s.setReg COND (flagOf (s.regs r))

/-- machine.rs: `VM::add_op`. -/
def add_op (instr : Nat) (s : VMState) : VMState :=
  let r0 := (instr >>> 9) &&& 0x7
  let r1 := (instr >>> 6) &&& 0x7
  let imm_flag := (instr >>> 5) &&& 0x1
  let v :=
    if imm_flag ≠ 0 then
      wrapping_add (s.regs r1) (sign_extend (instr &&& 0x1F) 5)
    else
      wrapping_add (s.regs r1) (s.regs (instr &&& 0x7))
  (s.setReg r0 v).update_flags r0

/-- machine.rs: `VM::and_op`. -/
def and_op (instr : Nat) (s : VMState) : VMState :=
  let r0 := (instr >>> 9) &&& 0x7
  let r1 := (instr >>> 6) &&& 0x7
  let imm_flag := (instr >>> 5) &&& 0x1
  let v :=
    if imm_flag ≠ 0 then
      (s.regs r1) &&& sign_extend (instr &&& 0x1F) 5
    else
      (s.regs r1) &&& s.regs (instr &&& 0x7)
  (s.setReg r0 v).update_flags r0

/-- machine.rs: `VM::not_op`; `!x` on `u16` is xor with 0xFFFF. -/
def not_op (instr : Nat) (s : VMState) : VMState :=
  let r0 := (instr >>> 9) &&& 0x7
  let r1 := (instr >>> 6) &&& 0x7
  (s.setReg r0 ((s.regs r1) ^^^ 0xFFFF)).update_flags r0

/-- machine.rs: `VM::branch_op`. -/
def branch_op (instr : Nat) (s : VMState) : VMState :=
  let pc_offset := sign_extend (instr &&& 0x1FF) 9
  let cond_flag := (instr >>> 9) &&& 0x7
  if cond_flag &&& s.regs COND ≠ 0 then
    s.setReg PC (wrapping_add (s.regs PC) pc_offset)
  else
    s

/-- machine.rs: `VM::jump_op`. -/
def jump_op (instr : Nat) (s : VMState) : VMState :=
  s.setReg PC (s.regs ((instr >>> 6) &&& 0x7))

/-- machine.rs: `VM::jsr_op`. -/
def jsr_op (instr : Nat) (s : VMState) : VMState :=
  let long_flag := (instr >>> 11) &&& 1
  let s1 := s.setReg R7 (s.regs PC)
  if long_flag ≠ 0 then
    s1.setReg PC (wrapping_add (s1.regs PC) (sign_extend (instr &&& 0x7FF) 11))
  else
    s1.setReg PC (s1.regs ((instr >>> 6) &&& 0x7))

/-- machine.rs: `VM::load_op`. -/
def load_op (instr : Nat) (s : VMState) : VMState :=
  let r0 := (instr >>> 9) &&& 0x7
  let addr := wrapping_add (s.regs PC) (sign_extend (instr &&& 0x1FF) 9)
  let f := Memory.read s.mem s.input addr
  ((s.withRead f).setReg r0 f.2.2).update_flags r0

/-- machine.rs: `VM::load_indirect_op` (two side-effecting reads). -/
def load_indirect_op (instr : Nat) (s : VMState) : VMState :=
  let r0 := (instr >>> 9) &&& 0x7
  let f1 := Memory.read s.mem s.input
    (wrapping_add (s.regs PC) (sign_extend (instr &&& 0x1FF) 9))
  let f2 := Memory.read f1.1 f1.2.1 f1.2.2
  (((s.withRead f1).withRead f2).setReg r0 f2.2.2).update_flags r0

/-- machine.rs: `VM::load_register_op`. -/
def load_register_op (instr : Nat) (s : VMState) : VMState :=
  let r0 := (instr >>> 9) &&& 0x7
  let r1 := (instr >>> 6) &&& 0x7
  let addr := wrapping_add (s.regs r1) (sign_extend (instr &&& 0x3F) 6)
  let f := Memory.read s.mem s.input addr
  ((s.withRead f).setReg r0 f.2.2).update_flags r0

/-- machine.rs: `VM::load_effective_address_op`. -/
def load_effective_address_op (instr : Nat) (s : VMState) : VMState :=
  let r0 := (instr >>> 9) &&& 0x7
  let pc_offset := sign_extend (instr &&& 0x1FF) 9
  (s.setReg r0 (wrapping_add (s.regs PC) pc_offset)).update_flags r0

/-- machine.rs: `VM::store_op`. -/
def store_op (instr : Nat) (s : VMState) : VMState :=
  let r0 := (instr >>> 9) &&& 0x7
  let addr := wrapping_add (s.regs PC) (sign_extend (instr &&& 0x1FF) 9)
  { s with mem := s.mem.write addr (s.regs r0) }

/-- machine.rs: `VM::store_indirect_op` (the address fetch is a
side-effecting read). -/
def store_indirect_op (instr : Nat) (s : VMState) : VMState :=
  let r0 := (instr >>> 9) &&& 0x7
  let f := Memory.read s.mem s.input
    (wrapping_add (s.regs PC) (sign_extend (instr &&& 0x1FF) 9))
  let s1 := s.withRead f
  { s1 with mem := s1.mem.write f.2.2 (s1.regs r0) }

/-- machine.rs: `VM::store_register_op`. -/
def store_register_op (instr : Nat) (s : VMState) : VMState :=
  let r0 := (instr >>> 9) &&& 0x7
  let r1 := (instr >>> 6) &&& 0x7
  let addr := wrapping_add (s.regs r1) (sign_extend (instr &&& 0x3F) 6)
  { s with mem := s.mem.write addr (s.regs r0) }

/-- Result of one instruction handler: `panicked` models a Rust panic
(arithmetic overflow in the trap string loops), as opposed to a returned
`Err(VMError)`. -/
inductive ExecResult
  | ok (s : VMState)
  | err (e : VMError)
  | panicked

/-- The bytes of the `"HALT\n"` notice printed by the HALT trap. -/
def haltMessage : List Nat := [72, 65, 76, 84, 10]

/-- The bytes of the `"Enter a character: "` prompt printed by TRAP IN. -/
def promptMessage : List Nat := "Enter a character: ".data.map Char.toNat

/-- machine.rs: the PUTS loop of `VM::trap_op`: while the cell at `addr`
is nonzero, print its low byte and advance `addr` with an unchecked
`addr += 1` (the advance past 0xFFFF is the overflow panic, `none`).  The
condition and the body each perform their own side-effecting read, as in
the source. -/
def putsLoop (s : VMState) (addr : Nat) : Option VMState :=
  let f1 := Memory.read s.mem s.input addr
  if f1.2.2 = 0 then
    some (s.withRead f1)
  else
    let f2 := Memory.read f1.1 f1.2.1 addr
    let s2 := { s.withRead f2 with output := s.output ++ [f2.2.2 &&& 0xFF] }
    if 0xFFFF ≤ addr then
      none
    else
      putsLoop s2 (addr + 1)
termination_by MEMORY_MAX - addr
decreasing_by
  simp [MEMORY_MAX]
  omega

/-- machine.rs: the PUTSP loop of `VM::trap_op`: low byte first, then the
high byte when it is nonzero; the `addr += 1` advance is unchecked. -/
def putspLoop (s : VMState) (addr : Nat) : Option VMState :=
  let f1 := Memory.read s.mem s.input addr
  if f1.2.2 = 0 then
    some (s.withRead f1)
  else
    let f2 := Memory.read f1.1 f1.2.1 addr
    let char2 := f2.2.2 >>> 8
    let s2 := { s.withRead f2 with
      output := s.output ++ [f2.2.2 &&& 0xFF] ++ (if char2 ≠ 0 then [char2] else []) }
    if 0xFFFF ≤ addr then
      none
    else
      putspLoop s2 (addr + 1)
termination_by MEMORY_MAX - addr
decreasing_by
  simp [MEMORY_MAX]
  omega

/-- machine.rs: `VM::trap_op`.  R7 is first loaded with the PC; dispatch
is on the low byte of the instruction.  GETC and IN block on one stdin
byte (an exhausted input stream is the failed `read_exact`, an I/O
error); an unknown vector is `Err(InvalidOpCode(vector))`. -/
def trap_op (instr : Nat) (s0 : VMState) : ExecResult :=
  let s := s0.setReg R7 (s0.regs PC)
  let vec := instr &&& 0xFF
  if vec = TRAP_GETC then
    match s.input with
    | [] => .err .IOFail
    | b :: rest =>
        .ok ((({ s with input := rest }).setReg R0 (b % 256)).update_flags R0)
  else if vec = TRAP_OUT then
    .ok { s with output := s.output ++ [s.regs R0 &&& 0xFF] }
  else if vec = TRAP_PUTS then
    match putsLoop s (s.regs R0) with
    | some s1 => .ok s1
    | none => .panicked
  else if vec = TRAP_IN then
    let sp := { s with output := s.output ++ promptMessage }
    match sp.input with
    | [] => .err .IOFail
    | b :: rest =>
        .ok ((({ sp with input := rest, output := sp.output ++ [b % 256] }).setReg
          R0 (b % 256)).update_flags R0)
  else if vec = TRAP_PUTSP then
    match putspLoop s (s.regs R0) with
    | some s1 => .ok s1
    | none => .panicked
  else if vec = TRAP_HALT then
    .ok { s with output := s.output ++ haltMessage }
  else
    .err (.InvalidOpCode vec)

/-- machine.rs: `VM::execute_instruction`: dispatch to the handler; RES
and RTI always yield `Err(InvalidOpCode(op as u16))`. -/
def execute_instruction (op : OpCode) (instr : Nat) (s : VMState) : ExecResult :=
  match op with
  | .ADD => .ok (add_op instr s)
  | .AND => .ok (and_op instr s)
  | .NOT => .ok (not_op instr s)
  | .BR => .ok (branch_op instr s)
  | .JMP => .ok (jump_op instr s)
  | .JSR => .ok (jsr_op instr s)
  | .LD => .ok (load_op instr s)
  | .LDI => .ok (load_indirect_op instr s)
  | .LDR => .ok (load_register_op instr s)
  | .LEA => .ok (load_effective_address_op instr s)
  | .ST => .ok (store_op instr s)
  | .STI => .ok (store_indirect_op instr s)
  | .STR => .ok (store_register_op instr s)
  | .TRAP => trap_op instr s
  | .RES => .err (.InvalidOpCode OpCode.RES.toNat)
  | .RTI => .err (.InvalidOpCode OpCode.RTI.toNat)

/-- Outcome of one iteration of the `while running` loop in
`VM::execute`: `halted` is the iteration that cleared `running` (a HALT
trap), `running` continues, `err` is an `Err` return out of the loop, and
`panicked` a Rust panic. -/
inductive StepResult
  | halted (s : VMState)
  | running (s : VMState)
  | err (e : VMError)
  | panicked

/-- machine.rs: one iteration of the fetch-decode-execute loop in
`VM::execute`.  The PC increment is the source's unchecked
`self.registers[PC] += 1` (checkedAdd); the fetch reads memory at the old
PC; a TRAP instruction with the HALT vector clears `running` before the
handler is dispatched. -/
def step (s : VMState) : StepResult :=
  match checkedAdd (s.regs PC) 1 with
  | none => .panicked
  | some pc1 =>
    let s1 := s.setReg PC pc1
    let f := Memory.read s1.mem s1.input (s.regs PC)
    let s2 := s1.withRead f
    let instr := f.2.2
    let op_code := instr >>> 12
    match OpCode.from_u16 op_code with
    | none => .err (.InvalidOpCode op_code)
    | some op =>
      match execute_instruction op instr s2 with
      | .ok s3 =>
          if op = OpCode.TRAP ∧ instr &&& 0xFF = TRAP_HALT then .halted s3
          else .running s3
      | .err e => .err e
      | .panicked => .panicked

/-- Outcome of the whole `while running` loop, run with explicit fuel:
`ok` is the `Ok(())` return after halting, `outOfFuel` means the loop had
not yet halted after the given number of iterations. -/
inductive RunResult
  | ok (s : VMState)
  | err (e : VMError)
  | panicked
  | outOfFuel (s : VMState)

/-- machine.rs: the `while running` loop of `VM::execute`. -/
def runLoop : Nat → VMState → RunResult
  | 0, s => .outOfFuel s
  | fuel + 1, s =>
    match step s with
    | .halted s1 => .ok s1
    | .running s1 => runLoop fuel s1
    | .err e => .err e
    | .panicked => .panicked

/-- machine.rs: `PC_START = 0x3000`. -/
def PC_START : Nat := 0x3000

/-- machine.rs: the initialisation at the top of `VM::execute`: PC is set
to `PC_START` and the condition flag to `FL_ZRO`. -/
def executeInit (s : VMState) : VMState :=
  (s.setReg PC PC_START).setReg COND FL_ZRO

/-- machine.rs: `VM::execute`: initialise PC and COND, then loop. -/
def execute (fuel : Nat) (s : VMState) : RunResult :=
  runLoop fuel (executeInit s)

/-- terminal/mod.rs: the two operations of `TerminalInterface`, recorded
in the order `VM::run` invokes them. -/
inductive TermEvent
  | disableInput
  | restoreInput
deriving DecidableEq

/-- machine.rs: `VM::run`: disable input buffering, execute, restore
input buffering, then return the execute result.  `dOk` and `rOk` say
whether the two terminal calls succeed (a failure is an `io::Error`
propagated by `?`).  The event list records which terminal operations
were invoked before `run` returns; a panic inside `execute` unwinds past
the restore call. -/
def run (dOk rOk : Bool) (fuel : Nat) (s : VMState) :
    List TermEvent × RunResult :=
  if dOk = false then
    ([.disableInput], .err .IOFail)
  else
    match execute fuel s with
    | .panicked => ([.disableInput], .panicked)
    | .outOfFuel s1 => ([.disableInput], .outOfFuel s1)
    | r =>
        if rOk = false then
          ([.disableInput, .restoreInput], .err .IOFail)
        else
          ([.disableInput, .restoreInput], r)

/-- machine.rs: `VM::new`: zeroed memory and registers; `input` is the
pending stdin byte stream of the process. -/
def VM.new (input : List Nat) : VMState :=
  { mem := Memory.new, regs := fun _ => 0, input := input, output := [] }

/-- machine.rs: the `chunks_exact(2)` / `u16::from_be_bytes` word
assembly in `VM::load_program`; a trailing odd byte is dropped. -/
def chunksExact2 : List Nat → List Nat
  | b0 :: b1 :: rest => ((b0 % 256) * 256 + (b1 % 256)) :: chunksExact2 rest
  | _ => []

/-- machine.rs: `VM::load_program` on the byte stream of one image file:
fewer than 2 bytes makes the origin `read_exact` fail with an I/O error
(`UnexpectedEof`, wrapped as `VMError::IO`); otherwise the big-endian
origin is followed by the words, handed to `Memory::load_image`.  The
outer `none` models the slice panic of an out-of-range image. -/
def load_program (m : Memory) (bytes : List Nat) :
    Option (Except VMError Memory) :=
  match bytes with
  | b0 :: b1 :: rest =>
      let origin := (b0 % 256) * 256 + (b1 % 256)
      match Memory.load_image m origin (chunksExact2 rest) with
      | some m1 => some (Except.ok m1)
      | none => none
  | _ => some (Except.error VMError.IOFail)

/-- main.rs: the successive `vm.load_program(path)` calls, at the level
of already-decoded images (origin, words); any slice panic propagates. -/
def loadImages : Memory → List (Nat × List Nat) → Option Memory
  | m, [] => some m
  | m, (origin, ws) :: rest =>
    match Memory.load_image m origin ws with
    | some m1 => loadImages m1 rest
    | none => none

/-- An address is covered by one of the loaded images. -/
def coveredBy (images : List (Nat × List Nat)) (a : Nat) : Prop :=
  ∃ p ∈ images, p.1 ≤ a ∧ a < p.1 + p.2.length

/-- Flag/register consistency of a handler result: when the handler
returned a state, the condition-flag register of that state is the flag
derived from its register `r`. -/
def flagsConsistent (r : Nat) : ExecResult → Prop
  | .ok s => s.regs COND = flagOf (s.regs r)
  | _ => True

/-- Whether a step result is the halting one. -/
def StepResult.isHalted : StepResult → Bool
  | .halted _ => true
  | _ => false

/-- Whether a run result is the normal `Ok(())` completion. -/
def RunResult.isOk : RunResult → Bool
  | .ok _ => true
  | _ => false

/-- Whether a run result is a returned `VMError`. -/
def RunResult.isErr : RunResult → Bool
  | .err _ => true
  | _ => false

/-- The machine state at the start of a run assembled from `VM::new`
(zero registers), the loaded memory, and the initialisation at the top of
`VM::execute`. -/
def startState (input : List Nat) (m : Memory) : VMState :=
  executeInit { mem := m, regs := fun _ => 0, input := input, output := [] }

/-- Concrete state whose PC is at the top of the address space. -/
def pcOverflowDemo : VMState := (VM.new []).setReg PC 0xFFFF

/-- Concrete state whose memory holds 1 in every cell. -/
def onesDemo : VMState :=
  { mem := ⟨fun _ => 1⟩, regs := fun _ => 0, input := [], output := [] }

/-- Concrete state with one pending stdin byte. -/
def getcDemo : VMState := VM.new [65]

/-- Memory holding a single HALT trap instruction at the default origin. -/
def haltDemoMem : Memory := Memory.storeWords Memory.new 0x3000 [0xF025]

/-- Fresh VM whose memory holds a HALT trap at the default origin. -/
def haltDemoRaw : VMState :=
  { mem := haltDemoMem, regs := fun _ => 0, input := [], output := [] }

/-- `haltDemoRaw` after the initialisation of `VM::execute`. -/
def haltDemo : VMState := executeInit haltDemoRaw

/-- Initialised VM about to fetch an instruction with opcode 13 (RES). -/
def resDemo : VMState :=
  executeInit { mem := Memory.storeWords Memory.new 0x3000 [0xD000],
                regs := fun _ => 0, input := [], output := [] }

/-- Initialised VM about to fetch an instruction with opcode 8 (RTI). -/
def rtiDemo : VMState :=
  executeInit { mem := Memory.storeWords Memory.new 0x3000 [0x8000],
                regs := fun _ => 0, input := [], output := [] }

/-- A single demo image: a HALT trap at the default origin. -/
def demoImages : List (Nat × List Nat) := [(0x3000, [0xF025])]

/-! ## Helper lemmas -/

theorem setReg_regs (s : VMState) (r v i : Nat) :
    (s.setReg r v).regs i = if i = r then v else s.regs i := rfl

theorem setReg_mem (s : VMState) (r v : Nat) : (s.setReg r v).mem = s.mem := rfl

theorem setReg_input (s : VMState) (r v : Nat) :
    (s.setReg r v).input = s.input := rfl

theorem update_flags_consistent (s : VMState) (r : Nat) (hr : r ≠ COND) :
    ((s.update_flags r).regs COND) = flagOf ((s.update_flags r).regs r) := by
  simp [VMState.update_flags, setReg_regs, hr]

theorem dst_ne_cond (instr : Nat) : (instr >>> 9) &&& 0x7 ≠ COND := by
  have h := @Nat.and_le_right (instr >>> 9) 0x7
  simp only [COND]
  omega

theorem sign_extend_mask (k x : Nat) (hx : x < 2 ^ k) :
    sign_extend x k &&& (2 ^ k - 1) = x := by
  have h65536 : (65536 : Nat) = 2 ^ 16 := by norm_num
  apply Nat.eq_of_testBit_eq
  intro i
  rcases lt_or_ge i k with hik | hik
  · have hm : Nat.testBit (65535 <<< k % 65536) i = false := by
      rw [h65536, Nat.testBit_mod_two_pow, Nat.testBit_shiftLeft]
      simp [Nat.not_le.mpr hik]
    unfold sign_extend
    split
    · simp [Nat.testBit_and, Nat.testBit_two_pow_sub_one, Nat.testBit_or, hm, hik]
    · simp [Nat.testBit_and, Nat.testBit_two_pow_sub_one, hik]
  · have hxi : Nat.testBit x i = false :=
      Nat.testBit_lt_two_pow (lt_of_lt_of_le hx (Nat.pow_le_pow_right (by norm_num) hik))
    simp [Nat.testBit_and, Nat.testBit_two_pow_sub_one, Nat.not_lt.mpr hik, hxi]

theorem flag_trichotomy_val (v : Nat) (hv : v < 65536) :
    (flagOf v = FL_ZRO ∨ flagOf v = FL_NEG ∨ flagOf v = FL_POS) ∧
    (flagOf v = FL_ZRO ↔ v = 0) ∧
    (flagOf v = FL_NEG ↔ v ≠ 0 ∧ Nat.testBit v 15 = true) ∧
    (flagOf v = FL_POS ↔ v ≠ 0 ∧ Nat.testBit v 15 = false) := by
  have htb : Nat.testBit v 15 = decide (v / 2 ^ 15 % 2 = 1) := Nat.testBit_to_div_mod
  have hsr : v >>> 15 = v / 2 ^ 15 := Nat.shiftRight_eq_div_pow v 15
  have hdiv : v / 2 ^ 15 < 2 := by
    have h15 : (2 : Nat) ^ 15 = 32768 := by norm_num
    omega
  by_cases h0 : v = 0
  · subst h0
    simp [flagOf, FL_ZRO, FL_NEG, FL_POS]
  · by_cases h15 : v >>> 15 ≠ 0
    · have htb1 : Nat.testBit v 15 = true := by
        rw [htb]
        simp only [decide_eq_true_eq]
        omega
      simp [flagOf, FL_ZRO, FL_NEG, FL_POS, h0, h15, htb1]
    · have htb0 : Nat.testBit v 15 = false := by
        rw [htb]
        simp only [decide_eq_false_iff_not]
        omega
      simp [flagOf, FL_ZRO, FL_NEG, FL_POS, h0, h15, htb0]

theorem storeWords_cells_outside :
    ∀ (ws : List Nat) (m : Memory) (start a : Nat),
      a < start ∨ start + ws.length ≤ a →
      (Memory.storeWords m start ws).cells a = m.cells a
  | [], _, _, _ => fun _ => rfl
  | w :: ws, m, start, a => fun h => by
      have hrec := storeWords_cells_outside ws (m.write start w) (start + 1) a
        (by simp at h ⊢; omega)
      rw [Memory.storeWords, hrec]
      have hne : a ≠ start := by simp at h; omega
      simp [Memory.write, hne]

theorem load_image_cells_outside (m m1 : Memory) (origin : Nat) (ws : List Nat)
    (h : Memory.load_image m origin ws = some m1) (a : Nat)
    (ha : a < origin ∨ origin + ws.length ≤ a) : m1.cells a = m.cells a := by
  unfold Memory.load_image at h
  split at h
  · cases h
    exact storeWords_cells_outside ws m origin a ha
  · cases h

theorem loadImages_cells_outside :
    ∀ (images : List (Nat × List Nat)) (m m1 : Memory),
      loadImages m images = some m1 → ∀ a, ¬ coveredBy images a →
      m1.cells a = m.cells a
  | [], m, m1 => by
      intro h a _
      cases h
      rfl
  | (origin, ws) :: rest, m, m1 => by
      intro h a ha
      rw [loadImages] at h
      rcases him : Memory.load_image m origin ws with _ | m2
      · rw [him] at h
        cases h
      · rw [him] at h
        have h1 : a < origin ∨ origin + ws.length ≤ a := by
          by_contra hcon
          push_neg at hcon
          exact ha ⟨(origin, ws), by simp [coveredBy], hcon.1, hcon.2⟩
        have hrest : ¬ coveredBy rest a := fun ⟨p, hp, hle, hlt⟩ =>
          ha ⟨p, List.mem_cons_of_mem _ hp, hle, hlt⟩
        rw [loadImages_cells_outside rest m2 m1 h a hrest]
        exact load_image_cells_outside m m2 origin ws him a h1

theorem chunks2_append_odd (c : Nat) :
    ∀ l : List Nat, l.length % 2 = 0 →
      chunksExact2 (l ++ [c]) = chunksExact2 l
  | [] => fun _ => rfl
  | [a] => fun h => by simp at h
  | a :: b :: t => fun h => by
      have ht : t.length % 2 = 0 := by simp at h; omega
      simp only [List.cons_append, chunksExact2]
      exact congrArg (List.cons _) (chunks2_append_odd c t ht)

/-! ## Claim theorems -/

/-- C1.  The claim says PC and string-loop address arithmetic wraps modulo
65536 with no overflow error or panic.  The code instead uses the
unchecked `+=` at exactly these two places (fetch: `self.registers[PC] += 1`;
PUTS/PUTSP: `addr += 1`), so at PC = 0xFFFF the fetch increment and at
addr = 0xFFFF the string-loop advance hit a `u16` overflow (a panic under
Rust's checked arithmetic) instead of wrapping to 0x0000: the step from a
state with PC = 0xFFFF panics, the PUTS and PUTSP loops panic on a
nonzero cell at 0xFFFF, and `checkedAdd 0xFFFF 1` is the overflow, while
the wrapping addition the claim (and the rest of the code) uses would
give 0. -/
theorem unchecked_address_increment_panics :
    step pcOverflowDemo = StepResult.panicked ∧
    putsLoop onesDemo 0xFFFF = none ∧
    putspLoop onesDemo 0xFFFF = none ∧
    checkedAdd 0xFFFF 1 = none ∧
    wrapping_add 0xFFFF 1 = 0 := by
  refine ⟨rfl, ?_, ?_, rfl, rfl⟩
  · rw [putsLoop]
    simp [onesDemo, Memory.read, MR_KBSR]
  · rw [putspLoop]
    simp [onesDemo, Memory.read, MR_KBSR]

/-- C2.  Flag derivation: for every 16-bit value the derived flag is
exactly one of FL_ZRO, FL_NEG, FL_POS, with FL_ZRO iff the value is 0,
FL_NEG iff it is nonzero with bit 15 set, FL_POS otherwise; and each of
ADD, AND, NOT, LD, LDI, LDR, LEA leaves the condition-flag register equal
to the flag derived from the register it just wrote, as do the TRAP GETC
and IN routines. -/
theorem flag_derivation_spec :
    (∀ v : Nat, v < 65536 →
      (flagOf v = FL_ZRO ∨ flagOf v = FL_NEG ∨ flagOf v = FL_POS) ∧
      (flagOf v = FL_ZRO ↔ v = 0) ∧
      (flagOf v = FL_NEG ↔ v ≠ 0 ∧ Nat.testBit v 15 = true) ∧
      (flagOf v = FL_POS ↔ v ≠ 0 ∧ Nat.testBit v 15 = false)) ∧
    (∀ (instr : Nat) (s : VMState),
      (add_op instr s).regs COND
        = flagOf ((add_op instr s).regs ((instr >>> 9) &&& 0x7))) ∧
    (∀ (instr : Nat) (s : VMState),
      (and_op instr s).regs COND
        = flagOf ((and_op instr s).regs ((instr >>> 9) &&& 0x7))) ∧
    (∀ (instr : Nat) (s : VMState),
      (not_op instr s).regs COND
        = flagOf ((not_op instr s).regs ((instr >>> 9) &&& 0x7))) ∧
    (∀ (instr : Nat) (s : VMState),
      (load_op instr s).regs COND
        = flagOf ((load_op instr s).regs ((instr >>> 9) &&& 0x7))) ∧
    (∀ (instr : Nat) (s : VMState),
      (load_indirect_op instr s).regs COND
        = flagOf ((load_indirect_op instr s).regs ((instr >>> 9) &&& 0x7))) ∧
    (∀ (instr : Nat) (s : VMState),
      (load_register_op instr s).regs COND
        = flagOf ((load_register_op instr s).regs ((instr >>> 9) &&& 0x7))) ∧
    (∀ (instr : Nat) (s : VMState),
      (load_effective_address_op instr s).regs COND
        = flagOf ((load_effective_address_op instr s).regs ((instr >>> 9) &&& 0x7))) ∧
    (∀ (instr : Nat) (s : VMState), instr &&& 0xFF = TRAP_GETC →
      flagsConsistent R0 (trap_op instr s)) ∧
    (∀ (instr : Nat) (s : VMState), instr &&& 0xFF = TRAP_IN →
      flagsConsistent R0 (trap_op instr s)) := by
  refine ⟨fun v hv => flag_trichotomy_val v hv,
    fun instr s => update_flags_consistent _ _ (dst_ne_cond instr),
    fun instr s => update_flags_consistent _ _ (dst_ne_cond instr),
    fun instr s => update_flags_consistent _ _ (dst_ne_cond instr),
    fun instr s => update_flags_consistent _ _ (dst_ne_cond instr),
    fun instr s => update_flags_consistent _ _ (dst_ne_cond instr),
    fun instr s => update_flags_consistent _ _ (dst_ne_cond instr),
    fun instr s => update_flags_consistent _ _ (dst_ne_cond instr),
    ?_, ?_⟩
  · intro instr s h
    unfold trap_op
    rw [h]
    simp only [TRAP_GETC, reduceIte]
    cases hin : (s.setReg R7 (s.regs PC)).input with
    | nil => simp [flagsConsistent]
    | cons b rest =>
        simp only [flagsConsistent]
        exact update_flags_consistent _ _ (by simp [R0, COND])
  · intro instr s h
    unfold trap_op
    rw [h]
    simp only [TRAP_GETC, TRAP_OUT, TRAP_PUTS, TRAP_IN, reduceIte]
    cases hin : ({ s.setReg R7 (s.regs PC) with
        output := (s.setReg R7 (s.regs PC)).output ++ promptMessage } : VMState).input with
    | nil => simp [flagsConsistent]
    | cons b rest =>
        simp only [flagsConsistent]
        exact update_flags_consistent _ _ (by simp [R0, COND])

/-- C2 witness: the trichotomy at the concrete value 5 and flag
consistency of the GETC trap on a concrete state with one pending input
byte. -/
theorem flag_derivation_spec_witness :
    ((5 : Nat) < 65536 ∧
      (flagOf 5 = FL_ZRO ∨ flagOf 5 = FL_NEG ∨ flagOf 5 = FL_POS)) ∧
    ((0xF020 : Nat) &&& 0xFF = TRAP_GETC ∧
      flagsConsistent R0 (trap_op 0xF020 getcDemo)) :=
  ⟨⟨by decide, (flag_derivation_spec.1 5 (by decide)).1⟩,
   ⟨by decide, flag_derivation_spec.2.2.2.2.2.2.2.2.1 0xF020 getcDemo (by decide)⟩⟩

/-- C3.  When the fetched word is a TRAP instruction with the HALT vector
(opcode field 15, low byte 0x25), the iteration that executes it is the
halting one (`running` is cleared, reaching the terminal Halted state
exactly once), and the loop returns `Ok` right after it no matter how
much fuel remains — `runLoop (fuel+1) s = runLoop 1 s` says no further
fetch is performed and there is no way back to the Running state.  The
hypotheses say the PC increment of the fetch itself does not overflow and
the word read at the PC is the HALT trap. -/
theorem trap_halt_terminates (s : VMState) (fuel : Nat)
    (h1 : s.regs PC + 1 < 65536)
    (h2 : (Memory.read s.mem s.input (s.regs PC)).2.2 >>> 12 = 15)
    (h3 : (Memory.read s.mem s.input (s.regs PC)).2.2 &&& 0xFF = TRAP_HALT) :
    (step s).isHalted = true ∧ runLoop (fuel + 1) s = runLoop 1 s ∧
      (runLoop 1 s).isOk = true := by
  have hca : checkedAdd (s.regs PC) 1 = some (s.regs PC + 1) := by
    simp [checkedAdd, h1]
  have hh : (step s).isHalted = true := by
    unfold step
    rw [hca]
    simp [setReg_mem, setReg_input, h2, h3, OpCode.from_u16, execute_instruction,
      trap_op, TRAP_GETC, TRAP_OUT, TRAP_PUTS, TRAP_IN, TRAP_PUTSP, TRAP_HALT,
      StepResult.isHalted]
  cases hst : step s with
  | halted t =>
      refine ⟨rfl, by simp [runLoop, hst], by simp [runLoop, hst, RunResult.isOk]⟩
  | running t => rw [hst] at hh; simp [StepResult.isHalted] at hh
  | err e => rw [hst] at hh; simp [StepResult.isHalted] at hh
  | panicked => rw [hst] at hh; simp [StepResult.isHalted] at hh

/-- C3 witness: a fresh machine with a HALT trap at 0x3000 halts in one
iteration, with five units of fuel to spare. -/
theorem trap_halt_terminates_witness :
    (haltDemo.regs PC + 1 < 65536 ∧
      (Memory.read haltDemo.mem haltDemo.input (haltDemo.regs PC)).2.2 >>> 12 = 15 ∧
      (Memory.read haltDemo.mem haltDemo.input (haltDemo.regs PC)).2.2 &&& 0xFF
        = TRAP_HALT) ∧
    ((step haltDemo).isHalted = true ∧
      runLoop (5 + 1) haltDemo = runLoop 1 haltDemo ∧
      (runLoop 1 haltDemo).isOk = true) :=
  ⟨⟨by decide, by decide, by decide⟩,
   trap_halt_terminates haltDemo 5 (by decide) (by decide) (by decide)⟩

/-- C4.  A memory read of the keyboard-status address refreshes both
device registers first — with a pending byte the status register gets bit
15 set and the data register the byte, with no pending input the status
register is cleared to 0 — and then returns the refreshed status cell;
other cells are untouched either way.  A read of any other address
(including the keyboard-data address) returns the cell unchanged with no
side effect on memory or the input stream. -/
theorem memory_read_device_semantics (m : Memory) (input : List Nat) :
    (∀ a, a ≠ MR_KBSR → Memory.read m input a = (m, input, m.cells a)) ∧
    (input = [] →
      (Memory.read m input MR_KBSR).1.cells MR_KBSR = 0 ∧
      (Memory.read m input MR_KBSR).1.cells MR_KBDR = m.cells MR_KBDR ∧
      (∀ c, c ≠ MR_KBSR → (Memory.read m input MR_KBSR).1.cells c = m.cells c) ∧
      (Memory.read m input MR_KBSR).2.1 = input ∧
      (Memory.read m input MR_KBSR).2.2 = 0) ∧
    (∀ b rest, input = b :: rest →
      Nat.testBit ((Memory.read m input MR_KBSR).1.cells MR_KBSR) 15 = true ∧
      (Memory.read m input MR_KBSR).1.cells MR_KBDR = b % 256 ∧
      (∀ c, c ≠ MR_KBSR → c ≠ MR_KBDR →
        (Memory.read m input MR_KBSR).1.cells c = m.cells c) ∧
      (Memory.read m input MR_KBSR).2.1 = rest ∧
      (Memory.read m input MR_KBSR).2.2 =
        (Memory.read m input MR_KBSR).1.cells MR_KBSR) := by
  refine ⟨?_, ?_, ?_⟩
  · intro a ha
    simp [Memory.read, ha]
  · intro hin
    subst hin
    refine ⟨?_, ?_, ?_, ?_, ?_⟩
    · simp [Memory.read, Memory.write, MR_KBSR]
    · simp [Memory.read, Memory.write, MR_KBSR, MR_KBDR]
    · intro c hc
      simp only [MR_KBSR] at hc
      simp [Memory.read, Memory.write, MR_KBSR, MR_KBDR, hc]
    · simp [Memory.read, MR_KBSR]
    · simp [Memory.read, Memory.write, MR_KBSR]
  · intro b rest hin
    subst hin
    refine ⟨?_, ?_, ?_, ?_, ?_⟩
    · simp [Memory.read, Memory.write, MR_KBSR, MR_KBDR]
      decide
    · simp [Memory.read, Memory.write, MR_KBSR, MR_KBDR]
    · intro c h1 h2
      simp only [MR_KBSR] at h1
      simp only [MR_KBDR] at h2
      simp [Memory.read, Memory.write, MR_KBSR, MR_KBDR, h1, h2]
    · simp [Memory.read, MR_KBSR]
    · simp [Memory.read, Memory.write, MR_KBSR, MR_KBDR]

/-- C4 witness: on fresh memory, a read of address 0 is pure, and a read
of the status address with the byte 97 pending sets bit 15 of the status
register and copies 97 into the data register. -/
theorem memory_read_device_semantics_witness :
    ((0 : Nat) ≠ MR_KBSR ∧
      Memory.read Memory.new [97] 0 = (Memory.new, [97], Memory.new.cells 0)) ∧
    (Nat.testBit ((Memory.read Memory.new [97] MR_KBSR).1.cells MR_KBSR) 15 = true ∧
      (Memory.read Memory.new [97] MR_KBSR).1.cells MR_KBDR = 97 % 256 ∧
      (Memory.read Memory.new [97] MR_KBSR).2.1 = []) :=
  ⟨⟨by decide, (memory_read_device_semantics Memory.new [97]).1 0 (by decide)⟩,
   ((memory_read_device_semantics Memory.new [97]).2.2 97 [] rfl).1,
   ((memory_read_device_semantics Memory.new [97]).2.2 97 [] rfl).2.1,
   ((memory_read_device_semantics Memory.new [97]).2.2 97 [] rfl).2.2.2.1⟩

/-- C5.  For each field width k used by the instruction set (5, 6, 9, 11)
and every k-bit value x, sign-extending x to 16 bits and masking the
result back to its low k bits gives back x. -/
theorem sign_extend_roundtrip (k : Nat)
    (_hk : k = 5 ∨ k = 6 ∨ k = 9 ∨ k = 11) (x : Nat) (hx : x < 2 ^ k) :
    sign_extend x k &&& (2 ^ k - 1) = x :=
  sign_extend_mask k x hx

/-- C5 witness: the roundtrip at width 11 and value 1234. -/
theorem sign_extend_roundtrip_witness :
    (((11 : Nat) = 5 ∨ (11 : Nat) = 6 ∨ (11 : Nat) = 9 ∨ (11 : Nat) = 11) ∧
      (1234 : Nat) < 2 ^ 11) ∧
    sign_extend 1234 11 &&& (2 ^ 11 - 1) = 1234 :=
  ⟨⟨by decide, by decide⟩,
   sign_extend_roundtrip 11 (by decide) 1234 (by decide)⟩

/-- C6.  A fetched instruction whose opcode field is 8 (RTI) or 13 (RES)
makes the step return the invalid-opcode error carrying that opcode
value, whatever the remaining 12 bits are, and the run loop surfaces the
same error. -/
theorem reserved_opcodes_invalid (s : VMState) (fuel : Nat)
    (h1 : s.regs PC + 1 < 65536)
    (h2 : (Memory.read s.mem s.input (s.regs PC)).2.2 >>> 12 = 8 ∨
          (Memory.read s.mem s.input (s.regs PC)).2.2 >>> 12 = 13) :
    step s = StepResult.err
        (VMError.InvalidOpCode ((Memory.read s.mem s.input (s.regs PC)).2.2 >>> 12)) ∧
      runLoop (fuel + 1) s = RunResult.err
        (VMError.InvalidOpCode ((Memory.read s.mem s.input (s.regs PC)).2.2 >>> 12)) := by
  have hca : checkedAdd (s.regs PC) 1 = some (s.regs PC + 1) := by
    simp [checkedAdd, h1]
  have hs : step s = StepResult.err
      (VMError.InvalidOpCode ((Memory.read s.mem s.input (s.regs PC)).2.2 >>> 12)) := by
    unfold step
    rw [hca]
    rcases h2 with h2 | h2 <;>
      simp [setReg_mem, setReg_input, h2, OpCode.from_u16, execute_instruction,
        OpCode.toNat]
  exact ⟨hs, by simp [runLoop, hs]⟩

/-- C6 witness: fetching the words 0xD000 (opcode 13) and 0x8000
(opcode 8) from initialised machines yields the invalid-opcode errors
carrying 13 and 8. -/
theorem reserved_opcodes_invalid_witness :
    ((Memory.read resDemo.mem resDemo.input (resDemo.regs PC)).2.2 >>> 12 = 13 ∧
      step resDemo = StepResult.err
        (VMError.InvalidOpCode
          ((Memory.read resDemo.mem resDemo.input (resDemo.regs PC)).2.2 >>> 12))) ∧
    ((Memory.read rtiDemo.mem rtiDemo.input (rtiDemo.regs PC)).2.2 >>> 12 = 8 ∧
      runLoop (0 + 1) rtiDemo = RunResult.err
        (VMError.InvalidOpCode
          ((Memory.read rtiDemo.mem rtiDemo.input (rtiDemo.regs PC)).2.2 >>> 12))) :=
  ⟨⟨by decide,
    (reserved_opcodes_invalid resDemo 0 (by decide) (Or.inr (by decide))).1⟩,
   ⟨by decide,
    (reserved_opcodes_invalid rtiDemo 0 (by decide) (Or.inl (by decide))).2⟩⟩

/-- C7.  The claim says out-of-range images (origin + length > 65536) are
rejected as a load-time error, the loader having checked the
precondition.  The code performs no such check: `Memory::load_image`
slice-copies unconditionally, so an out-of-range image is an
out-of-bounds slice panic (`none`), not a returned error — `load_program`
propagates the panic instead of producing any `VMError`, and
`VMError::InvalidProgram` is never constructed anywhere in the source.
In-range images are copied word by word starting at the origin, as the
claim's positive half states (shown here on a concrete image). -/
theorem load_image_unchecked_bounds :
    Memory.load_image Memory.new 0xFFFF [0, 0] = none ∧
    load_program Memory.new [0xFF, 0xFF, 0, 0, 0, 0] = none ∧
    (match Memory.load_image Memory.new 0x3000 [7, 9] with
     | some m => m.cells 0x3000 = 7 ∧ m.cells 0x3001 = 9 ∧ m.cells 0x2FFF = 0
     | none => False) := by
  refine ⟨rfl, rfl, ?_⟩
  simp only [Memory.load_image, MEMORY_MAX]
  norm_num [Memory.storeWords, Memory.write, Memory.new]

/-- C8 counterexample.  The claim says a byte stream shorter than the
2-byte header fails with the invalid-program-format error kind.  On the
empty stream the code's `read_exact` fails with an I/O error
(`UnexpectedEof` wrapped as `VMError::IO`), which is a different kind
from `VMError::InvalidProgram`. -/
theorem short_image_io_error_counterexample :
    load_program Memory.new [] = some (Except.error VMError.IOFail) ∧
    VMError.IOFail ≠ VMError.InvalidProgram :=
  ⟨rfl, by decide⟩

/-- C8 amended.  A program-image byte stream shorter than the 2-byte
header makes loading fail with the I/O-failure error kind (the
invalid-program-format kind exists but is never produced); a trailing
truncated byte after the header (odd remaining byte count) is ignored
rather than treated as an error. -/
theorem short_image_error_kind_amended (m : Memory) :
    (∀ bytes : List Nat, bytes.length < 2 →
      load_program m bytes = some (Except.error VMError.IOFail)) ∧
    (∀ (b0 b1 c : Nat) (rest : List Nat), rest.length % 2 = 0 →
      load_program m (b0 :: b1 :: (rest ++ [c])) =
        load_program m (b0 :: b1 :: rest)) := by
  constructor
  · intro bytes hlen
    match bytes with
    | [] => rfl
    | [b] => rfl
    | b0 :: b1 :: rest =>
        simp at hlen
        omega
  · intro b0 b1 c rest hrest
    simp only [load_program, chunks2_append_odd c rest hrest]

/-- C8 amended witness: a 1-byte stream yields the I/O error kind, and a
3-byte stream loads identically to its 2-byte header alone. -/
theorem short_image_error_kind_amended_witness :
    (([ (0x30 : Nat) ] : List Nat).length < 2 ∧
      load_program Memory.new [0x30] = some (Except.error VMError.IOFail)) ∧
    (([] : List Nat).length % 2 = 0 ∧
      load_program Memory.new [0x30, 0, 7] = load_program Memory.new [0x30, 0]) :=
  ⟨⟨by decide, (short_image_error_kind_amended Memory.new).1 [0x30] (by decide)⟩,
   ⟨by decide, (short_image_error_kind_amended Memory.new).2 0x30 0 7 [] (by decide)⟩⟩

/-- C9.  Whenever the raw-mode change at run start succeeded and the
execution loop finishes with either normal completion (`Ok` after HALT)
or a propagated `VMError`, `VM::run` invokes the terminal restore
operation after the disable operation and before the run's outcome is
returned to the caller — on both outcomes and whether or not the restore
call itself then succeeds. -/
theorem run_always_restores_terminal (rOk : Bool) (fuel : Nat) (s : VMState)
    (h : (execute fuel s).isOk = true ∨ (execute fuel s).isErr = true) :
    (run true rOk fuel s).1 = [TermEvent.disableInput, TermEvent.restoreInput] := by
  unfold run
  rcases hex : execute fuel s with s1 | e | _ | s1 <;>
    rw [hex] at h <;>
    simp [RunResult.isOk, RunResult.isErr] at h <;>
    cases rOk <;>
    simp

/-- C9 witness: a run over a single HALT trap completes normally and both
terminal operations were invoked, in order. -/
theorem run_always_restores_terminal_witness :
    ((execute 1 haltDemoRaw).isOk = true ∨ (execute 1 haltDemoRaw).isErr = true) ∧
    (run true true 1 haltDemoRaw).1
      = [TermEvent.disableInput, TermEvent.restoreInput] :=
  ⟨Or.inl (by decide),
   run_always_restores_terminal true 1 haltDemoRaw (Or.inl (by decide))⟩

/-- C10.  At the start of every run, after `VM::new`, any sequence of
successful image loads and the initialisation at the top of
`VM::execute`, and before the first fetch: the PC is 0x3000, the
condition-flag register is FL_ZRO, every general-purpose register (index
below 8) is 0, and every memory cell not covered by one of the loaded
images is 0. -/
theorem run_start_state (input : List Nat) (images : List (Nat × List Nat))
    (mFinal : Memory) (h : loadImages Memory.new images = some mFinal) :
    (startState input mFinal).regs PC = PC_START ∧
    (startState input mFinal).regs COND = FL_ZRO ∧
    (∀ i, i < 8 → (startState input mFinal).regs i = 0) ∧
    (∀ a, ¬ coveredBy images a → (startState input mFinal).mem.cells a = 0) := by
  refine ⟨rfl, rfl, ?_, ?_⟩
  · intro i hi
    have h8 : i ≠ PC := by simp only [PC]; omega
    have h9 : i ≠ COND := by simp only [COND]; omega
    simp [startState, executeInit, setReg_regs, h8, h9]
  · intro a ha
    have hm : mFinal.cells a = Memory.new.cells a :=
      loadImages_cells_outside images Memory.new mFinal h a ha
    simpa [startState, executeInit, Memory.new] using hm

/-- C10 witness: loading the single demo image and initialising gives
PC = 0x3000, flag FL_ZRO, register 3 zero and (uncovered) cell 0 zero. -/
theorem run_start_state_witness :
    loadImages Memory.new demoImages = some haltDemoMem ∧
    (startState [] haltDemoMem).regs PC = PC_START ∧
    (startState [] haltDemoMem).regs COND = FL_ZRO ∧
    (startState [] haltDemoMem).regs 3 = 0 ∧
    (startState [] haltDemoMem).mem.cells 0 = 0 :=
  ⟨rfl,
   (run_start_state [] demoImages haltDemoMem rfl).1,
   (run_start_state [] demoImages haltDemoMem rfl).2.1,
   (run_start_state [] demoImages haltDemoMem rfl).2.2.1 3 (by decide),
   (run_start_state [] demoImages haltDemoMem rfl).2.2.2 0
     (by simp [coveredBy, demoImages])⟩

end LC3
